import Mathlib

/-!
Verification development for the mini_db storage and execution engine.

Each section embeds one Python module of the repository as executable Lean
definitions (machine values are `Nat`/`Int`, byte buffers are `List Nat`,
Python dicts are association lists, Python exceptions are `Option`/`Except`),
and the theorems at the end of the file settle the specification claims
against those definitions.
-/

/-! ## Value model

Runtime row values of the engine (`NULL | int | str`, plus `float` modelled
with an exact rational carrier for the code paths the theorems exercise).
Rows are Python dicts from column name to value, embedded as association
lists. -/

inductive Val where
  | null : Val
  | int (n : Int) : Val
  | str (s : String) : Val
  | flt (q : Rat) : Val
deriving DecidableEq, Repr

/-- A row: Python `Dict[str, Any]` as an association list. -/
abbrev Row := List (String × Val)

/-- Python `row.get(col)`: `None` (i.e. `Val.null`) when the key is absent. -/
def rowGet (r : Row) (c : String) : Val :=
  match r.lookup c with
  | some v => v
  | none => Val.null

/-- Python `row[col] = v` on a dict: replace in place if present, else append. -/
def rowSet (r : Row) (c : String) (v : Val) : Row :=
  match r with
  | [] => [(c, v)]
  | (k, w) :: rest => if k = c then (k, v) :: rest else (k, w) :: rowSet rest c v

/-! ## String helpers

Character-list implementations of the string operations the code uses
(`str.upper`, `in`, `startswith`, `split`), written with structural
recursion so that the kernel can evaluate them inside proofs. -/

/-- `s.upper()`. -/
def toUpperS (s : String) : String := String.mk (s.toList.map Char.toUpper)

/-- `s.startswith(p)`. -/
def startsWithS (p s : String) : Bool := p.toList.isPrefixOf s.toList

/-- `c in s` for a single character. -/
def containsCharS (c : Char) (s : String) : Bool := s.toList.contains c

/-- Fuel-based worker for `splitOnS`; the fuel is an upper bound on the
number of characters consumed, so any fuel above the input length is exact. -/
def splitOnAuxS (sep : List Char) : Nat → List Char → List Char → List (List Char)
  | 0, l, acc => [acc.reverse ++ l]
  | _ + 1, [], acc => [acc.reverse]
  | fuel + 1, c :: rest, acc =>
    if sep.isPrefixOf (c :: rest) then
      acc.reverse :: splitOnAuxS sep fuel ((c :: rest).drop sep.length) []
    else splitOnAuxS sep fuel rest (c :: acc)

/-- `s.split(sep)` for a nonempty separator (Python `str.split` /
`String.splitOn`). -/
def splitOnS (sep s : String) : List String :=
  (splitOnAuxS sep.toList (s.toList.length + 1) s.toList []).map (fun l => String.mk l)

/-! ## Python comparison semantics on values

`a == b` never raises in Python (`None == 5` is `False`); the ordered
comparisons raise `TypeError` on mixed `None`/number/string operands, which
the embedding returns as `none`. Numbers compare numerically across
`int`/`float`. -/

def pyEq : Val → Val → Bool
  | Val.null, Val.null => true
  | Val.int a, Val.int b => a = b
  | Val.str a, Val.str b => a = b
  | Val.flt a, Val.flt b => a = b
  | Val.int a, Val.flt b => (a : Rat) = b
  | Val.flt a, Val.int b => a = (b : Rat)
  | _, _ => false

def pyLt : Val → Val → Option Bool
  | Val.int a, Val.int b => some (a < b)
  | Val.flt a, Val.flt b => some (a < b)
  | Val.int a, Val.flt b => some ((a : Rat) < b)
  | Val.flt a, Val.int b => some (a < (b : Rat))
  | Val.str a, Val.str b => some (a < b)
  | _, _ => none

/-- Dispatch of `_OPS` in `engine/predicates.py` (and the comparison helpers in
`update.py`/`join.py`): apply a comparison operator, `none` when the operator
is not supported, `some none` when Python would raise `TypeError`. -/
def pyCompare (op : String) (a b : Val) : Option (Option Bool) :=
  if op = "=" ∨ op = "==" then some (some (pyEq a b))
  else if op = "!=" ∨ op = "<>" then some (some (!pyEq a b))
  else if op = ">" then some ((pyLt b a).map id)
  else if op = "<" then some ((pyLt a b).map id)
  else if op = ">=" then some ((pyLt a b).map (fun r => !r))
  else if op = "<=" then some ((pyLt b a).map (fun r => !r))
  else none

/-! ## engine/types.py -/

/-- `normalize_type`: upper-case the declared column type. -/
def normalizeType (t : String) : String := toUpperS t

/-- Decimal integer parse used to model Python `int(s)`:
`some n` exactly when the string is an optional sign followed by one or
more digits. -/
def pyIntParse (s : String) : Option Int :=
  let core := fun (digits : List Char) =>
    if digits ≠ [] ∧ digits.all Char.isDigit then
      some (digits.foldl (fun acc c => acc * 10 + (c.toNat - 48)) (0 : Nat))
    else none
  match s.toList with
  | '-' :: rest => (core rest).map (fun n => -(n : Int))
  | '+' :: rest => (core rest).map (fun n => (n : Int))
  | l => (core l).map (fun n => (n : Int))

/-- Model of Python `float(s)` restricted to plain decimal literals
`[sign] digits [. digits]`; everything else fails (`none`). -/
def pyFloatParse (s : String) : Option Rat :=
  match splitOnS "." s with
  | [a] => (pyIntParse a).map (fun n => (n : Rat))
  | [a, b] =>
    let fracDigits := b.toList
    if fracDigits.all Char.isDigit then
      match pyIntParse a with
      | some n =>
        let frac : Rat := (fracDigits.foldl (fun acc c => acc * 10 + (c.toNat - 48)) 0 : Nat) /
          ((10 : Rat) ^ fracDigits.length)
        some (if n < 0 ∨ startsWithS "-" s then (n : Rat) - frac else (n : Rat) + frac)
      | none =>
        if a = "" then some ((fracDigits.foldl (fun acc c => acc * 10 + (c.toNat - 48)) 0 : Nat) /
          ((10 : Rat) ^ fracDigits.length)) else none
    else none
  | _ => none

/-- Python `str(value)` for the values that reach it in `coerce_by_type`. -/
def pyStr : Val → String
  | Val.null => "None"
  | Val.int n => toString n
  | Val.str s => s
  | Val.flt _ => ""

/-- `coerce_by_type(value, col_type)` from `engine/types.py`. -/
def coerceByType (value : Val) (colType : String) : Val :=
  let t := normalizeType colType
  match value with
  | Val.null => Val.null
  | Val.int n =>
    if t = "INT" ∨ t = "INTEGER" then Val.int n
    else if t = "FLOAT" ∨ t = "DOUBLE" ∨ t = "REAL" ∨ t = "NUMERIC" ∨ t = "DECIMAL" then
      Val.flt (n : Rat)
    else Val.int n
  | Val.flt q =>
    if t = "INT" ∨ t = "INTEGER" then Val.int q.floor
    else if t = "FLOAT" ∨ t = "DOUBLE" ∨ t = "REAL" ∨ t = "NUMERIC" ∨ t = "DECIMAL" then
      Val.flt q
    else Val.flt q
  | Val.str s =>
    if toUpperS s = "NULL" then Val.null
    else if t = "INT" ∨ t = "INTEGER" then
      match pyIntParse s with
      | some n => Val.int n
      | none => Val.str s
    else if t = "FLOAT" ∨ t = "DOUBLE" ∨ t = "REAL" ∨ t = "NUMERIC" ∨ t = "DECIMAL" then
      match pyFloatParse s with
      | some q => Val.flt q
      | none => Val.str s
    else Val.str s

/-! ## engine/predicates.py -/

/-- One column of a schema: `{name, type}`. -/
structure Col where
  name : String
  type : String
deriving DecidableEq, Repr

/-- A `where` predicate descriptor `{column, operator, value}`. -/
structure Wh where
  column : String
  operator : String
  value : Val
deriving DecidableEq, Repr

/-- `_base_col` from `engine/predicates.py` (same helper in
`sort_limit.py`): strip an `AS` alias and a table prefix. -/
def baseCol (name : String) : String :=
  (splitOnS "." ((splitOnS " AS " name).headD name)).getLastD name

/-- Column type lookup in `build_predicate`: first schema entry whose name
matches, defaulting to the empty string. -/
def schemaColType (schema : List Col) (colName : String) : String :=
  match schema.find? (fun c => c.name = colName) with
  | some c => c.type
  | none => ""

/-- The predicate closure built by `build_predicate` in
`engine/predicates.py`, applied to a row.  `none` models the
`ValueError` raised for an unsupported operator; the inner
`try/except` returning `False` on `TypeError` is the `Option.getD false`. -/
def buildPredicateHolds (wh : Option Wh) (schema : List Col) (row : Row) : Option Bool :=
  match wh with
  | none => some true
  | some w =>
    let colName := baseCol w.column
    let colType := schemaColType schema colName
    let rhs := coerceByType w.value colType
    match pyCompare w.operator Val.null Val.null with
    | none => none
    | some _ =>
      let lv0 := rowGet row colName
      let lv := if colType ≠ "" then coerceByType lv0 colType else lv0
      match pyCompare w.operator lv rhs with
      | none => none
      | some r => some (r.getD false)

/-- `Filter.execute` from `engine/operators/filter.py` over the predicate of
`build_predicate`: keep the rows on which the predicate holds. -/
def filterRows (wh : Option Wh) (schema : List Col) (rows : List Row) : List Row :=
  rows.filter (fun r => (buildPredicateHolds wh schema r).getD false)

/-! ## engine/operators/project.py -/

/-- `_alias` from `project.py`: the text after `AS`, if any. -/
def projAlias (s : String) : Option String :=
  match splitOnS " AS " s with
  | [_, a] => some a
  | _ => none

/-- `Project.execute` for an explicit column list (`columns ≠ ["*"]`):
for each output column take alias value, then the full base expression,
then the unqualified leaf name. -/
def projectRows (cols : List String) (rows : List Row) : List Row :=
  if cols = ["*"] then rows
  else
    rows.map (fun r =>
      cols.map (fun s =>
        let ali := projAlias s
        let baseFull := (splitOnS " AS " s).headD s
        let baseLeaf := ((splitOnS "." baseFull).getLastD baseFull)
        let v1 := match ali with
          | some a => rowGet r a
          | none => Val.null
        let v2 := if v1 = Val.null then rowGet r baseFull else v1
        let v3 := if v2 = Val.null then rowGet r baseLeaf else v2
        (s, v3)))

/-! ## engine/bptree.py

The Python tree is a mutable object graph: `_insert_to_parent` locates the
split child inside its parent by object identity (`is`), and
`_split_upward_inner` allocates fresh node objects.  The embedding therefore
keeps an explicit store from addresses to nodes; object identity is address
equality.  Keys are embedded as `Int` (the `_cmp_key` float/string coercion
restricted to the integer keys exercised here is numeric comparison), and the
stored rows are a type parameter. -/

/-- `_cmp_key` on integer keys: numeric comparison. -/
def cmpKey (a b : Int) : Ordering := compare a b

/-- A tree node: `_Leaf(keys, vals, next)` or `_Inner(keys, children)`.
`next` and `children` hold addresses into the store. -/
inductive BNode (α : Type) where
  | leaf (keys : List Int) (vals : List (List α)) (next : Option Nat)
  | inner (keys : List Int) (children : List Nat)
deriving Repr

/-- The in-memory tree: order `M`, root address, node store, next fresh
address.  The store is an association list `address → node`. -/
structure BTree (α : Type) where
  M : Nat
  root : Nat
  store : List (Nat × BNode α)
  fresh : Nat
deriving Repr

/-- Fetch the node at an address (a dangling address, which never occurs in
runs of the code, reads as an empty leaf). -/
def BTree.node (t : BTree α) (a : Nat) : BNode α :=
  match t.store.lookup a with
  | some n => n
  | none => BNode.leaf [] [] none

/-- Store update at an address. -/
def BTree.setNode (t : BTree α) (a : Nat) (n : BNode α) : BTree α :=
  { t with store := (a, n) :: t.store.filter (fun p => p.1 ≠ a) }

/-- Allocate a fresh address for a node. -/
def BTree.alloc (t : BTree α) (n : BNode α) : BTree α × Nat :=
  ({ t with store := (t.fresh, n) :: t.store, fresh := t.fresh + 1 }, t.fresh)

/-- `BPlusTree(order)`: an empty tree whose root is a fresh leaf. -/
def BTree.empty (α : Type) (order : Nat) : BTree α :=
  { M := order, root := 0, store := [(0, BNode.leaf [] [] none)], fresh := 1 }

/-- The child-descent index: `while i < len(keys) and _cmp_key(key, keys[i]) >= 0`. -/
def descendIndex (key : Int) : List Int → Nat
  | [] => 0
  | k :: ks => if cmpKey key k ≠ Ordering.lt then descendIndex key ks + 1 else 0

/-- `_find_leaf` (shared descent loop of `search_eq` and `insert`),
returning the leaf address and, for `insert`, the path of inner addresses
with the deepest node first (Python appends along the way and pops from the
end).  `fuel` bounds the loop; any fuel at least the store size suffices. -/
def findLeafPath (t : BTree α) (key : Int) : Nat → Nat → List Nat → Nat × List Nat
  | 0, a, path => (a, path)
  | fuel + 1, a, path =>
    match t.node a with
    | BNode.leaf _ _ _ => (a, path)
    | BNode.inner keys children =>
      let i := descendIndex key keys
      findLeafPath t key fuel (children.getD i 0) (a :: path)

/-- `search_eq(key)`: descend to the candidate leaf; emit the value list of
the first key equal to `key`, else nothing. -/
def searchEq (t : BTree α) (key : Int) : List α :=
  let leafAddr := (findLeafPath t key (t.store.length + 1) t.root []).1
  match t.node leafAddr with
  | BNode.leaf keys vals _ =>
    match (keys.zip vals).find? (fun kv => cmpKey kv.1 key = Ordering.eq) with
    | some kv => kv.2
    | none => []
  | BNode.inner _ _ => []

/-- Python `list.insert(i, x)`: insert before index `i`, clamped to the end. -/
def listInsertAt (l : List α) (i : Nat) (x : α) : List α :=
  l.take i ++ x :: l.drop i

/-- The leaf-insertion index: `while i < len(keys) and _cmp_key(key, keys[i]) > 0`. -/
def leafIndex (key : Int) : List Int → Nat
  | [] => 0
  | k :: ks => if cmpKey key k = Ordering.gt then leafIndex key ks + 1 else 0

/-- `while i < len(parent.children) and parent.children[i] is not left: i += 1`:
index of the first child equal (by identity, i.e. address) to `left`, or
`len(children)` when absent. -/
def childIndex (children : List Nat) (left : Nat) : Nat :=
  match children with
  | [] => 0
  | c :: cs => if c = left then 0 else childIndex cs left + 1

/-- `_insert_to_parent(left, sep_key, right, path)` together with the inlined
`_split_upward_inner` it calls; recursion is on the path of inner addresses
(deepest first). -/
def insertToParent (left : Nat) (sep : Int) (right : Nat) :
    List Nat → BTree α → BTree α
  | [], t =>
    let (t1, r) := t.alloc (BNode.inner [sep] [left, right])
    { t1 with root := r }
  | parentAddr :: rest, t =>
    match t.node parentAddr with
    | BNode.leaf _ _ _ => t
    | BNode.inner pkeys pchildren =>
      let i := childIndex pchildren left
      let pkeys' := listInsertAt pkeys i sep
      let pchildren' := listInsertAt pchildren (i + 1) right
      let t1 := t.setNode parentAddr (BNode.inner pkeys' pchildren')
      if pkeys'.length > t1.M - 1 then
        -- _split_upward_inner(parent, rest)
        let mid := pkeys'.length / 2
        let sep2 := pkeys'.getD mid 0
        let (t2, leftAddr) := t1.alloc (BNode.inner (pkeys'.take mid) (pchildren'.take (mid + 1)))
        let (t3, rightAddr) := t2.alloc (BNode.inner (pkeys'.drop (mid + 1)) (pchildren'.drop (mid + 1)))
        if rest = [] ∧ parentAddr = t3.root then
          let (t4, r) := t3.alloc (BNode.inner [sep2] [leftAddr, rightAddr])
          { t4 with root := r }
        else
          insertToParent leftAddr sep2 rightAddr rest t3
      else t1

/-- `_split_upward_leaf(leaf, path)`. -/
def splitUpwardLeaf (leafAddr : Nat) (path : List Nat) (t : BTree α) : BTree α :=
  match t.node leafAddr with
  | BNode.inner _ _ => t
  | BNode.leaf keys vals nxt =>
    if keys.length ≤ t.M - 1 then t
    else
      let mid := keys.length / 2
      let (t1, rightAddr) := t.alloc (BNode.leaf (keys.drop mid) (vals.drop mid) nxt)
      let t2 := t1.setNode leafAddr (BNode.leaf (keys.take mid) (vals.take mid) (some rightAddr))
      let sep := (keys.drop mid).getD 0 0
      insertToParent leafAddr sep rightAddr path t2

/-- `BPlusTree.insert(key, row)`. -/
def btreeInsert (t : BTree α) (key : Int) (row : α) : BTree α :=
  let (leafAddr, path) := findLeafPath t key (t.store.length + 1) t.root []
  match t.node leafAddr with
  | BNode.inner _ _ => t
  | BNode.leaf keys vals nxt =>
    let i := leafIndex key keys
    let t1 :=
      if i < keys.length ∧ cmpKey (keys.getD i 0) key = Ordering.eq then
        t.setNode leafAddr (BNode.leaf keys (vals.take i ++ ((vals.getD i []) ++ [row]) :: vals.drop (i + 1)) nxt)
      else
        t.setNode leafAddr (BNode.leaf (listInsertAt keys i key) (listInsertAt vals i [row]) nxt)
    splitUpwardLeaf leafAddr path t1

/-- Run a sequence of `insert(k, v)` calls on an empty tree of the given order. -/
def btreeOfInserts (order : Nat) (pairs : List (Int × α)) : BTree α :=
  pairs.foldl (fun t kv => btreeInsert t kv.1 kv.2) (BTree.empty α order)

/-- The multiset of values inserted under a key, in insertion order (the
reference answer of the specification). -/
def insertedUnder (pairs : List (Int × α)) (key : Int) : List α :=
  (pairs.filter (fun kv => kv.1 = key)).map (fun kv => kv.2)

/-! ## engine/operators/index_scan.py and engine/index_registry.py

`ensure_loaded_from_storage` scans the index heap table (rows of the shape
`{"k": key, "row": row}`) and inserts every entry into a fresh order-64
B+tree; `try_scan` answers a single-column predicate from that tree.  Index
heap entries are embedded as `(key, row)` pairs with the integer key the
claims exercise. -/

/-- `search_range(low, high, incl_low, incl_high)`: the leaf-chain scan.
`fuel` bounds the chain walk. -/
def searchRangeLeaves (t : BTree α) (low high : Option Int) (inclLow inclHigh : Bool) :
    Nat → Option Nat → Bool → List α
  | 0, _, _ => []
  | _, none, _ => []
  | fuel + 1, some addr, started0 =>
    match t.node addr with
    | BNode.inner _ _ => []
    | BNode.leaf keys vals nxt =>
      let rec walk : List (Int × List α) → Bool → List α × Bool × Bool
        | [], st => ([], st, true)
        | (k, vs) :: rest, st =>
          let st' := st ||
            (match low with
             | none => true
             | some lo =>
               match cmpKey k lo with
               | Ordering.lt => false
               | Ordering.eq => inclLow
               | Ordering.gt => true)
          if !st' then walk rest st'
          else
            match high with
            | some hi =>
              (match cmpKey k hi with
               | Ordering.gt => ([], st', false)
               | Ordering.eq =>
                 if inclHigh then
                   let (out, stF, cont) := walk rest st'
                   (vs ++ out, stF, cont)
                 else ([], st', false)
               | Ordering.lt =>
                 let (out, stF, cont) := walk rest st'
                 (vs ++ out, stF, cont))
            | none =>
              let (out, stF, cont) := walk rest st'
              (vs ++ out, stF, cont)
      let (out, stF, cont) := walk (keys.zip vals) started0
      if cont then out ++ searchRangeLeaves t low high inclLow inclHigh fuel nxt stF
      else out

/-- `BPlusTree.search_range`. -/
def searchRange (t : BTree α) (low high : Option Int) (inclLow inclHigh : Bool) : List α :=
  let start :=
    match low with
    | none =>
      (findLeafPath t 0 (t.store.length + 1) t.root []).1
    | some lo => (findLeafPath t lo (t.store.length + 1) t.root []).1
  searchRangeLeaves t low high inclLow inclHigh (t.store.length + 1) (some start) low.isNone

/-- `IndexRegistry.ensure_loaded_from_storage`: rebuild a fresh order-64 tree
from the index heap entries (scanned in heap order). -/
def ensureLoadedTree (entries : List (Int × Row)) : BTree Row :=
  btreeOfInserts 64 entries

/-- The key conversion inside `IndexScanOperator.try_scan` restricted to the
integer key space of the embedding: string values that look like (optionally
negated) digit runs become integers; integer values pass through; anything
else is outside the model (`none`). -/
def tryScanKey : Val → Option Int
  | Val.int n => some n
  | Val.str s => pyIntParse s
  | _ => none

/-- `IndexScanOperator.try_scan(table, where)` against a loaded tree for an
index on `indexedCol`: `none` is Python `None` (index not applicable). -/
def tryScan (indexedCol : String) (entries : List (Int × Row)) (w : Option Wh) :
    Option (List Row) :=
  match w with
  | none => none
  | some w =>
    if w.column = "" then none
    else if ¬(w.operator = "=" ∨ w.operator = ">" ∨ w.operator = ">=" ∨
              w.operator = "<" ∨ w.operator = "<=") then none
    else if w.column ≠ indexedCol then none
    else
      let tree := ensureLoadedTree entries
      match tryScanKey w.value with
      | none => none
      | some v =>
        if w.operator = "=" then some (searchEq tree v)
        else if w.operator = ">" ∨ w.operator = ">=" then
          some (searchRange tree (some v) none (w.operator = ">=") true)
        else some (searchRange tree none (some v) true (w.operator = "<="))

/-! ## storage/data_page.py

Byte-level model of the slotted page.  A page is a `List Nat` of byte values;
the page size is the length of the list (`page_size = len(mv)` in the
source).  Header: `page_id (u32 LE) | free_off (u16 LE) | slot_count (u16 LE)
| flags (u16 LE)`, 10 bytes.  Slot entries are 6 bytes
`offset (u16) | length (u16) | tombstone (u8) | pad` growing down from the
end of the page. -/

def getByte (l : List Nat) (i : Nat) : Nat := l.getD i 0

/-- Bytes `[off, off+len)` of the page (`bytes(mv[off:off+len])`). -/
def getBytes (l : List Nat) (off len : Nat) : List Nat := (l.drop off).take len

/-- Write `q` over the bytes starting at `off` (`mv[off:off+len(q)] = q`).
Python raises `ValueError` when the slice leaves the buffer; that case is
ruled out by the page invariants wherever the operations below write, and the
model leaves the page unchanged there. -/
def setBytes (l : List Nat) (off : Nat) (q : List Nat) : List Nat :=
  if off + q.length ≤ l.length then l.take off ++ q ++ l.drop (off + q.length) else l

/-- Little-endian 16-bit encoding (`struct.pack("<H")`). -/
def u16le (n : Nat) : List Nat := [n % 256, n / 256 % 256]

/-- Little-endian 32-bit encoding (`struct.pack("<I")`). -/
def u32le (n : Nat) : List Nat :=
  [n % 256, n / 256 % 256, n / 65536 % 256, n / 16777216 % 256]

/-- Little-endian 16-bit decoding (`struct.unpack_from("<H")`). -/
def readU16 (l : List Nat) (pos : Nat) : Nat :=
  getByte l pos % 256 + 256 * (getByte l (pos + 1) % 256)

def HDR_SIZE : Nat := 10
def SLOT_SIZE : Nat := 6

/-- `free_off` header field. -/
def pageFreeOff (l : List Nat) : Nat := readU16 l 4

/-- `slot_count` header field. -/
def pageSlotCount (l : List Nat) : Nat := readU16 l 6

/-- `_write_header(page_id, free_off, slot_cnt, flags)`. -/
def writeHeader (l : List Nat) (pid freeOff slotCnt flags : Nat) : List Nat :=
  setBytes l 0 (u32le pid ++ u16le freeOff ++ u16le slotCnt ++ u16le flags)

/-- `format_empty(pid)`: zero the page, then write the initial header. -/
def formatEmpty (n : Nat) (pid : Nat) : List Nat :=
  writeHeader (List.replicate n 0) pid HDR_SIZE 0 0

/-- `_slot_pos(slot_id)`: the slot directory grows down from the page end. -/
def slotPos (l : List Nat) (sid : Nat) : Nat := l.length - (sid + 1) * SLOT_SIZE

/-- Slot fields (`_read_slot`). -/
def slotOffset (l : List Nat) (sid : Nat) : Nat := readU16 l (slotPos l sid)

def slotLength (l : List Nat) (sid : Nat) : Nat := readU16 l (slotPos l sid + 2)

def slotTomb (l : List Nat) (sid : Nat) : Nat := getByte l (slotPos l sid + 4) % 256

/-- `_write_slot(slot_id, offset, length, tomb)` (the pad byte is zeroed). -/
def writeSlot (l : List Nat) (sid off len tomb : Nat) : List Nat :=
  setBytes l (slotPos l sid) (u16le off ++ u16le len ++ [tomb % 256, 0])

/-- `free_space()`: `page_size - free_off - (slot_count + 1) * SLOT_SIZE`,
as a Python (unbounded, possibly negative) integer. -/
def freeSpace (l : List Nat) : Int :=
  (l.length : Int) - pageFreeOff l - (pageSlotCount l + 1) * SLOT_SIZE

/-- `record_length(slot_id)`. -/
def recordLength (l : List Nat) (sid : Nat) : Nat := slotLength l sid

/-- `insert_record(payload) → slot_id`, `MemoryError` when
`free_space() < len(payload) + SLOT_SIZE`. -/
def insertRecord (l : List Nat) (payload : List Nat) : Except String (List Nat × Nat) :=
  let need : Int := payload.length + SLOT_SIZE
  if freeSpace l < need then Except.error "not enough space in page"
  else
    let freeOff := pageFreeOff l
    let sc := pageSlotCount l
    let pid := getByte l 0 + 256 * getByte l 1 + 65536 * getByte l 2 + 16777216 * getByte l 3
    let flags := readU16 l 8
    let l1 := setBytes l freeOff payload
    let l2 := writeHeader l1 pid (freeOff + payload.length) (sc + 1) flags
    let l3 := writeSlot l2 sc freeOff payload.length 0
    Except.ok (l3, sc)

/-- `read_record(slot_id)`: `KeyError` on a tombstoned slot, empty bytes when
the stored length is zero. -/
def readRecord (l : List Nat) (sid : Nat) : Except String (List Nat) :=
  if slotTomb l sid ≠ 0 then Except.error "slot is deleted"
  else if slotLength l sid = 0 then Except.ok []
  else Except.ok (getBytes l (slotOffset l sid) (slotLength l sid))

/-- `overwrite_record(slot_id, payload) → bool`: `KeyError` on a tombstoned
slot; `False` (page untouched) on a length mismatch; otherwise write the
payload over the record bytes and return `True`. -/
def overwriteRecord (l : List Nat) (sid : Nat) (payload : List Nat) :
    Except String (Bool × List Nat) :=
  if slotTomb l sid ≠ 0 then Except.error "slot is deleted"
  else if payload.length ≠ slotLength l sid then Except.ok (false, l)
  else Except.ok (true, setBytes l (slotOffset l sid) payload)

/-! ## storage/table_heap.py

State of a `TableHeap`: the `TableMeta` (`data_pids`, `fsm`) plus the page
contents reachable through the buffer pool (`pid → bytes`) and the pager's
next fresh page id.  Only the insert path is embedded — the path claim C10
is about. -/

structure HeapSt where
  pageSize : Nat
  dataPids : List Nat
  fsm : List (Nat × Int)
  pages : List (Nat × List Nat)
  nextPid : Nat
deriving Repr

/-- `meta.fsm.get(pid, 0)`. -/
def fsmGet (s : HeapSt) (pid : Nat) : Int := ((s.fsm.lookup pid).getD 0)

/-- The bytes of page `pid` as seen through `bp.get_page`. -/
def heapPage (s : HeapSt) (pid : Nat) : List Nat := (s.pages.lookup pid).getD []

/-- `_choose_page_for_insert(need)`: first data page whose FSM entry admits
`need + SLOT_SIZE` bytes. -/
def choosePageForInsert (s : HeapSt) (need : Nat) : Option Nat :=
  s.dataPids.find? (fun pid => (need + SLOT_SIZE : Int) ≤ fsmGet s pid)

/-- `_allocate_data_page()`: allocate a fresh zeroed page from the pager,
`format_empty` it, append it to `data_pids` and record its free space in the
FSM. -/
def allocateDataPage (s : HeapSt) : HeapSt × Nat :=
  let pid := s.nextPid
  let page := formatEmpty s.pageSize pid
  ({ s with
      dataPids := s.dataPids ++ [pid]
      fsm := (pid, freeSpace page) :: s.fsm
      pages := (pid, page) :: s.pages
      nextPid := pid + 1 }, pid)

/-- `TableHeap.insert(payload) → RID`: choose a page by FSM (or allocate),
re-check the true free space (allocating a fresh page when it is too small),
then `insert_record`; a `MemoryError` raised there propagates. -/
def tableHeapInsert (s : HeapSt) (payload : List Nat) :
    Except String (HeapSt × Nat × Nat) :=
  let need := payload.length
  let (s1, pid1) :=
    match choosePageForInsert s need with
    | some pid => (s, pid)
    | none => allocateDataPage s
  let page1 := heapPage s1 pid1
  let (s2, pid2, page2) :=
    if freeSpace page1 < (need + SLOT_SIZE : Int) then
      let (s', pid') := allocateDataPage s1
      (s', pid', heapPage s' pid')
    else (s1, pid1, page1)
  match insertRecord page2 payload with
  | Except.error e => Except.error e
  | Except.ok (page', slotId) =>
    Except.ok
      ({ s2 with
          fsm := (pid2, freeSpace page') :: s2.fsm
          pages := (pid2, page') :: s2.pages.filter (fun p => p.1 ≠ pid2) },
        pid2, slotId)

/-! ## storage/buffer_pool.py

State of a `BufferPool` with the default LRU policy: resident frames
(`page_id → Frame`), the LRU candidate list of unpinned page ids
(least-recently-used first; `_LRUPolicy`), and the pager's disk contents.
Statistics counters never influence control flow and are omitted. -/

structure Frame where
  pageId : Nat
  data : List Nat
  pin : Nat
  dirty : Bool
deriving DecidableEq, Repr

structure BP where
  capacity : Nat
  frames : List (Nat × Frame)
  lru : List Nat
  disk : List (Nat × List Nat)
deriving DecidableEq, Repr

/-- In-place value update of an association list (mutating a dict entry /
a frame object). -/
def assocSet (l : List (Nat × α)) (k : Nat) (v : α) : List (Nat × α) :=
  l.map (fun p => if p.1 = k then (k, v) else p)

/-- `_LRUPolicy.touch(pid)`: move to the most-recently-used end. -/
def lruTouch (lru : List Nat) (pid : Nat) : List Nat :=
  (lru.filter (fun x => x ≠ pid)) ++ [pid]

/-- The `_evict_for` loop over the candidate list: pop victims until one is a
resident unpinned frame; write it back when dirty; drop the frame.  `none`
models the `BufferPool is full and all pages are pinned` error, raised after
the candidate list is exhausted. -/
def evictLoop (frames : List (Nat × Frame)) (disk : List (Nat × List Nat)) :
    List Nat → Option (Nat × List (Nat × Frame) × List (Nat × List Nat) × List Nat)
  | [] => none
  | v :: rest =>
    match frames.lookup v with
    | none => evictLoop frames disk rest
    | some fr =>
      if 0 < fr.pin then evictLoop frames disk rest
      else
        let disk' := if fr.dirty then (v, fr.data) :: disk.filter (fun p => p.1 ≠ v) else disk
        some (v, frames.filter (fun p => p.1 ≠ v), disk', rest)

/-- `get_page(pid)`: pin on hit; on miss evict if at capacity, then read from
the pager and insert a frame with `pin_count = 1`.  The `Bool` is false when
the eviction raised (`BufferPoolExhausted`): the exception propagates with
the frame table unchanged and the candidate list drained. -/
def getPage (s : BP) (pid : Nat) : BP × Bool :=
  match s.frames.lookup pid with
  | some fr => ({ s with frames := assocSet s.frames pid { fr with pin := fr.pin + 1 } }, true)
  | none =>
    if s.capacity ≤ s.frames.length then
      match evictLoop s.frames s.disk s.lru with
      | none => ({ s with lru := [] }, false)
      | some (_, frames', disk', lruRest) =>
        let data := (disk'.lookup pid).getD []
        ({ s with
            frames := (pid, ⟨pid, data, 1, false⟩) :: frames'
            disk := disk'
            lru := lruRest }, true)
    else
      let data := (s.disk.lookup pid).getD []
      ({ s with frames := (pid, ⟨pid, data, 1, false⟩) :: s.frames }, true)

/-- `unpin(pid, dirty)`: `none` is the `KeyError` for a non-resident page;
a frame whose `pin_count` is already 0 is left untouched (early return);
otherwise decrement, OR the dirty flag, and on reaching 0 enter the LRU
candidate list. -/
def unpinBP (s : BP) (pid : Nat) (d : Bool) : Option BP :=
  match s.frames.lookup pid with
  | none => none
  | some fr =>
    if fr.pin = 0 then some s
    else
      let fr' : Frame := { fr with pin := fr.pin - 1, dirty := fr.dirty || d }
      let s1 := { s with frames := assocSet s.frames pid fr' }
      if fr.pin - 1 = 0 then some { s1 with lru := lruTouch s1.lru pid } else some s1

/-- `flush_page(pid)`: write back when dirty, clear the dirty bit. -/
def flushPageBP (s : BP) (pid : Nat) : BP :=
  match s.frames.lookup pid with
  | some fr =>
    if fr.dirty then
      { s with
          frames := assocSet s.frames pid { fr with dirty := false }
          disk := (pid, fr.data) :: s.disk.filter (fun p => p.1 ≠ pid) }
    else s
  | none => s

/-- `flush_all()`: write back every dirty frame and clear the bits. -/
def flushAllBP (s : BP) : BP :=
  { s with
      frames := s.frames.map (fun p => (p.1, { p.2 with dirty := false }))
      disk := s.frames.foldl
        (fun d p => if p.2.dirty then (p.1, p.2.data) :: d.filter (fun q => q.1 ≠ p.1) else d)
        s.disk }

/-- The public operations of the buffer pool. -/
inductive BPOp where
  | get (pid : Nat)
  | unpin (pid : Nat) (dirty : Bool)
  | flushPage (pid : Nat)
  | flushAll
deriving DecidableEq, Repr

/-- One public call; a raised exception leaves the state as the code left it
(`unpin`'s `KeyError` happens before any mutation). -/
def applyBPOp (op : BPOp) (s : BP) : BP :=
  match op with
  | BPOp.get pid => (getPage s pid).1
  | BPOp.unpin pid d => (unpinBP s pid d).getD s
  | BPOp.flushPage pid => flushPageBP s pid
  | BPOp.flushAll => flushAllBP s

/-! ## engine/operators/join.py

The join-type dispatch at the top of the per-join loop of
`JoinOperator.execute`: `LEFT`-prefixed types (including `LEFT OUTER`) run as
LEFT, `INNER` as INNER, and every other type — `RIGHT` included — raises
`NotImplementedError` before any row is produced. -/

def joinMode (jtype : Option String) : Except String String :=
  let t := toUpperS (jtype.getD "INNER")
  if startsWithS "LEFT" t then Except.ok "LEFT"
  else if t = "INNER" then Except.ok "INNER"
  else Except.error ("JOIN type not supported: " ++ t)

/-- The mode resolution `JoinOperator.execute` performs for its join list, in
order; the first unsupported type aborts the whole statement. -/
def joinExecuteModes : List (Option String) → Except String (List String)
  | [] => Except.ok []
  | j :: rest =>
    match joinMode j with
    | Except.error e => Except.error e
    | Except.ok m =>
      match joinExecuteModes rest with
      | Except.error e => Except.error e
      | Except.ok ms => Except.ok (m :: ms)

/-! ## engine/operators/update.py -/

def quoteChar : Char := Char.ofNat 39

def dquoteChar : Char := Char.ofNat 34

/-- `_parse_value(v)`: strip paired quotes; otherwise try a numeric parse
(`float` when the text has a dot, `int` otherwise); fall back to the raw
string.  Non-string values pass through unchanged. -/
def parseValue (v : Val) : Val :=
  match v with
  | Val.str s =>
    let cs := s.toList
    if 2 ≤ cs.length ∧
        ((cs.headD quoteChar = quoteChar ∧ cs.getLastD quoteChar = quoteChar ∧
            cs.headD quoteChar = cs.getLastD quoteChar) ∨
          (cs.headD quoteChar = dquoteChar ∧ cs.getLastD quoteChar = dquoteChar)) then
      Val.str (String.mk (cs.drop 1).dropLast)
    else if containsCharS '.' s then
      match pyFloatParse s with
      | some q => Val.flt q
      | none => Val.str s
    else
      match pyIntParse s with
      | some n => Val.int n
      | none => Val.str s
  | v => v

/-- `_cmp(a, op, b)` from `update.py`: comparison with `False` both on a
`TypeError` and on an unknown operator. -/
def updCmp (a : Val) (op : String) (b : Val) : Bool :=
  match pyCompare op a b with
  | some r => r.getD false
  | none => false

/-- `_match_where(row, where)`: empty predicate matches everything; an
`a.b` column reads column `b`. -/
def matchWhere (row : Row) (w : Option Wh) : Bool :=
  match w with
  | none => true
  | some w =>
    let val := parseValue w.value
    let col :=
      match splitOnS "." w.column with
      | _ :: c1 :: rest => String.intercalate "." (c1 :: rest)
      | _ => w.column
    updCmp (rowGet row col) w.operator val

/-- A `SET col = value` clause of an Update plan. -/
structure SetClause where
  column : String
  value : Val
deriving DecidableEq, Repr

/-- The in-memory row transformation of `UpdateOperator.execute`: every row
matching WHERE has each SET clause applied as
`row[col] = _parse_value(value)`; the resulting list is what the operator
writes back after clearing the table.  The declared column types are never
consulted. -/
def updateRowsExec (rows : List Row) (sets : List SetClause) (w : Option Wh) : List Row :=
  rows.map (fun row =>
    if matchWhere row w then
      sets.foldl (fun r kv => rowSet r kv.column (parseValue kv.value)) row
    else row)

/-- The transformation claim C7 ascribes to the Update operator, written from
the specification's words for comparison: `SET col = coerce(value, type)`
with the column's declared type. -/
def updateRowsSpec (schema : List Col) (rows : List Row) (sets : List SetClause)
    (w : Option Wh) : List Row :=
  rows.map (fun row =>
    if matchWhere row w then
      sets.foldl
        (fun r kv => rowSet r kv.column (coerceByType kv.value (schemaColType schema kv.column)))
        row
    else row)

/-! ## engine/operators/sort_limit.py

`OrderBy.execute` sorts the materialized child rows once per key, rightmost
key first, with Python's stable `list.sort`; the embedding uses a stable
insertion sort (inserting after equal elements), which computes the same
list as any stable sort by the same strict comparison.  Rows are maps to an
ordered value carrier with `none` for NULL/missing, matching `x.get(col)`.
ASC sorts by the key `(value is None, value)`; DESC sorts by that key in
reverse and then re-sorts by `(value is None,)` to push NULLs last. -/

abbrev RowO (K : Type) := List (String × Option K)

def rowGetO (r : RowO K) (c : String) : Option K :=
  match r.lookup c with
  | some v => v
  | none => none

/-- Stable insertion: the new element goes after every element that is not
strictly greater. -/
def stableInsert (lt : α → α → Bool) (x : α) : List α → List α
  | [] => [x]
  | y :: ys => if lt x y then x :: y :: ys else y :: stableInsert lt x ys

/-- Stable sort by a strict comparison (the model of Python `list.sort`). -/
def stableSort (lt : α → α → Bool) (l : List α) : List α :=
  l.foldl (fun acc x => stableInsert lt x acc) []

/-- Strict comparison of the ASC sort key `(x.get(col) is None, x.get(col))`
(`None` pairs compare equal; a `None` key is greater than any value). -/
def ltAsc [LinearOrder K] (col : String) (x y : RowO K) : Bool :=
  match rowGetO x col, rowGetO y col with
  | none, _ => false
  | some _, none => true
  | some a, some b => decide (a < b)

/-- Strict comparison of the DESC tie-break key `(x.get(col) is None,)`. -/
def ltNoneKey (col : String) (x y : RowO K) : Bool :=
  (rowGetO x col).isSome && (rowGetO y col).isNone

/-- One pass of the `OrderBy.execute` loop for a key `{column, direction}`. -/
def orderByPass [LinearOrder K] (colSpec : String) (dir : String) (rows : List (RowO K)) :
    List (RowO K) :=
  let col := baseCol colSpec
  if toUpperS dir = "DESC" then
    stableSort (ltNoneKey col) (stableSort (fun x y => ltAsc col y x) rows)
  else
    stableSort (ltAsc col) rows

/-- `OrderBy.execute`: apply the passes for the keys in reverse order. -/
def orderByExec [LinearOrder K] (keys : List (String × String)) (rows : List (RowO K)) :
    List (RowO K) :=
  keys.reverse.foldl (fun rs k => orderByPass k.1 k.2 rs) rows

/-! ## Concrete scenarios used by the claims -/

/-- C1 failing input: an order-4 tree receiving the keys 20 down to 7, each
inserted with itself as the row value. -/
def c1FailingInserts : List (Int × Int) :=
  (List.range 14).map (fun i => ((20 - i : Int), (20 - i : Int)))

/-- C2 scenario: schema of `t(id INT, name VARCHAR)`. -/
def c2Schema : List Col := [⟨"id", "INT"⟩, ⟨"name", "VARCHAR"⟩]

/-- C2 scenario: the three rows of `t`. -/
def c2Rows : List Row :=
  [[("id", Val.int 1), ("name", Val.str "a")],
   [("id", Val.int 2), ("name", Val.str "b")],
   [("id", Val.int 3), ("name", Val.str "c")]]

/-- C2 scenario: the index heap of `idx_id` on column `id` — one
`{"k": key, "row": row}` entry per base row, in table-scan order. -/
def c2IdxEntries : List (Int × Row) := c2Rows.map (fun r =>
  (match rowGet r "id" with
   | Val.int n => n
   | _ => 0, r))

/-- C2 scenario: the predicate `id = 2`. -/
def c2Where : Wh := ⟨"id", "=", Val.int 2⟩

/-- C2: the index-path answer of `SELECT name FROM t WHERE id = 2` — load the
index heap into a B+tree (`ensure_loaded_from_storage`), probe with
`try_scan` / `search_eq`, project `name`. -/
def c2IndexPath : Option (List Row) :=
  (tryScan "id" c2IdxEntries (some c2Where)).map (projectRows ["name"])

/-- C2: the sequential path — scan the table rows, filter with the built
predicate, project `name`. -/
def c2SeqPath : List Row :=
  projectRows ["name"] (filterRows (some c2Where) c2Schema c2Rows)

/-- C3 witness scenario: capacity-1 pool holding a pinned page 1 (whose id
also sits in the LRU candidate list, stale from an earlier unpin) and an
unpinned page 2; `get_page(3)` must evict page 2, not page 1. -/
def c3State : BP :=
  { capacity := 1
    frames := [(1, ⟨1, [], 1, false⟩), (2, ⟨2, [], 0, false⟩)]
    lru := [1, 2]
    disk := [] }

/-- C4 counterexample state: page 1 resident with `pin_count = 0` and a clean
frame. -/
def c4State : BP :=
  { capacity := 1
    frames := [(1, ⟨1, [], 0, false⟩)]
    lru := [1]
    disk := [] }

/-- C4 witness state: page 1 resident with `pin_count = 1` and a clean frame. -/
def c4PinnedState : BP :=
  { capacity := 1
    frames := [(1, ⟨1, [], 1, false⟩)]
    lru := []
    disk := [] }

/-- C6 witness page: a 32-byte page holding one live 3-byte record `[7,8,9]`
at offset 10 (the page produced by `format_empty(1)` followed by
`insert_record([7,8,9])`). -/
def c6Page : List Nat :=
  [1, 0, 0, 0, 13, 0, 1, 0, 0, 0, 7, 8, 9, 0, 0, 0,
   0, 0, 0, 0, 0, 0, 0, 0, 0, 0, 10, 0, 3, 0, 0, 0]

/-- C7 scenario: single-column schema `name VARCHAR`. -/
def c7Schema : List Col := [⟨"name", "VARCHAR"⟩]

/-- C7 scenario: the table rows before `UPDATE t SET name = 123`. -/
def c7Rows : List Row := [[("name", Val.str "x")]]

/-- C7 scenario: the `SET name = 123` clause, its value the literal text. -/
def c7Sets : List SetClause := [⟨"name", Val.str "123"⟩]

/-- C8 example rows `[{a:1},{a:null},{a:2}]`. -/
def c8Rows : List (RowO Int) := [[("a", some 1)], [("a", none)], [("a", some 2)]]

/-- C10 witness state: a freshly created empty table (no data pages yet) over
4096-byte pages. -/
def c10State : HeapSt :=
  { pageSize := 4096, dataPids := [], fsm := [], pages := [], nextPid := 1 }

/-- C10 witness payload: 4075 bytes, one more than the 4074-byte bound. -/
def c10Payload : List Nat := List.replicate 4075 0


/-! ## Helper lemmas -/

theorem lookup_cons_eq {α : Type} (a k : Nat) (b : α) (t : List (Nat × α)) (h : k = a) :
    List.lookup k ((a, b) :: t) = some b := by
  subst h
  simp [List.lookup]

theorem lookup_cons_ne {α : Type} (a k : Nat) (b : α) (t : List (Nat × α)) (h : k ≠ a) :
    List.lookup k ((a, b) :: t) = List.lookup k t := by
  have hb : (k == a) = false := by simpa using h
  simp [List.lookup, hb]

theorem lookup_assocSet_self {α : Type} (l : List (Nat × α)) (k : Nat) (v w : α)
    (h : l.lookup k = some w) : (assocSet l k v).lookup k = some v := by
  induction l with
  | nil => simp [List.lookup] at h
  | cons p t ih =>
    obtain ⟨a, b⟩ := p
    by_cases hak : a = k
    · subst hak
      simp only [assocSet, List.map, if_true]
      exact lookup_cons_eq a a v _ rfl
    · have hk : k ≠ a := fun hh => hak hh.symm
      rw [lookup_cons_ne a k b t hk] at h
      simp only [assocSet, List.map]
      rw [if_neg hak, lookup_cons_ne a k b _ hk]
      exact ih h

theorem lookup_assocSet_ne {α : Type} (l : List (Nat × α)) (k k2 : Nat) (v : α)
    (h : k2 ≠ k) : (assocSet l k v).lookup k2 = l.lookup k2 := by
  induction l with
  | nil => simp [assocSet]
  | cons p t ih =>
    obtain ⟨a, b⟩ := p
    by_cases hak : a = k
    · subst hak
      simp only [assocSet, List.map, if_true]
      rw [lookup_cons_ne a k2 v _ h, lookup_cons_ne a k2 b t h]
      simpa [assocSet] using ih
    · simp only [assocSet, List.map]
      rw [if_neg hak]
      by_cases hk2 : k2 = a
      · rw [lookup_cons_eq a k2 b _ hk2, lookup_cons_eq a k2 b t hk2]
      · rw [lookup_cons_ne a k2 b _ hk2, lookup_cons_ne a k2 b t hk2]
        simpa [assocSet] using ih

theorem lookup_map_snd {α : Type} (f : α → α) (l : List (Nat × α)) (k : Nat) :
    ((l.map (fun p => (p.1, f p.2))).lookup k) = (l.lookup k).map f := by
  induction l with
  | nil => simp
  | cons p t ih =>
    obtain ⟨a, b⟩ := p
    simp only [List.map]
    by_cases hk : k = a
    · rw [lookup_cons_eq a k (f b) _ hk, lookup_cons_eq a k b t hk]
      rfl
    · rw [lookup_cons_ne a k (f b) _ hk, lookup_cons_ne a k b t hk]
      exact ih

theorem lookup_filter_ne {α : Type} (l : List (Nat × α)) (v k : Nat) (h : k ≠ v) :
    (l.filter (fun p => p.1 ≠ v)).lookup k = l.lookup k := by
  induction l with
  | nil => simp
  | cons p t ih =>
    obtain ⟨a, b⟩ := p
    by_cases hav : a = v
    · subst hav
      have hd : (decide ((a, b).1 ≠ a)) = false := by simp
      simp only [List.filter, hd]
      rw [lookup_cons_ne a k b t (by exact h)]
      exact ih
    · have hd : (decide ((a, b).1 ≠ v)) = true := by simpa using hav
      simp only [List.filter, hd]
      by_cases hk : k = a
      · rw [lookup_cons_eq a k b _ hk, lookup_cons_eq a k b t hk]
      · rw [lookup_cons_ne a k b _ hk, lookup_cons_ne a k b t hk]
        exact ih

theorem setBytes_length (l q : List Nat) (off : Nat) (h : off + q.length ≤ l.length) :
    (setBytes l off q).length = l.length := by
  unfold setBytes
  rw [if_pos h]
  simp [List.length_append, List.length_take, List.length_drop]
  omega

theorem getBytes_setBytes (l q : List Nat) (off : Nat) (h : off + q.length ≤ l.length) :
    getBytes (setBytes l off q) off q.length = q := by
  unfold setBytes getBytes
  rw [if_pos h]
  have htk : (l.take off).length = off := by
    rw [List.length_take]
    omega
  rw [List.append_assoc, List.drop_left' htk, List.take_left]

theorem getByte_setBytes_of_ge (l q : List Nat) (off p : Nat)
    (h : off + q.length ≤ l.length) (hp : off + q.length ≤ p) :
    getByte (setBytes l off q) p = getByte l p := by
  unfold setBytes getByte
  rw [if_pos h]
  have htk : (l.take off).length = off := by
    rw [List.length_take]
    omega
  have hlen : (l.take off ++ q).length = off + q.length := by
    rw [List.length_append, htk]
  unfold List.getD
  rw [List.get?_append_right (by omega), hlen, List.get?_drop]
  have hpq : off + q.length + (p - (off + q.length)) = p := by omega
  rw [hpq]

theorem formatEmpty_eq (n pid : Nat) (h : 10 ≤ n) :
    formatEmpty n pid =
      (pid % 256) :: (pid / 256 % 256) :: (pid / 65536 % 256) :: (pid / 16777216 % 256) ::
        10 :: 0 :: 0 :: 0 :: 0 :: 0 :: List.replicate (n - 10) 0 := by
  have harg : u32le pid ++ u16le HDR_SIZE ++ u16le 0 ++ u16le 0 =
      (pid % 256) :: (pid / 256 % 256) :: (pid / 65536 % 256) :: (pid / 16777216 % 256) ::
        10 :: 0 :: 0 :: 0 :: 0 :: (0 : Nat) :: [] := by
    norm_num [u32le, u16le, HDR_SIZE]
  unfold formatEmpty writeHeader setBytes
  rw [harg]
  have hcond : 0 + ((pid % 256) :: (pid / 256 % 256) :: (pid / 65536 % 256) ::
      (pid / 16777216 % 256) :: 10 :: 0 :: 0 :: 0 :: 0 :: (0 : Nat) :: []).length ≤
      (List.replicate n (0 : Nat)).length := by
    simp [List.length_replicate]
    omega
  rw [if_pos hcond]
  simp [List.drop_replicate]

theorem length_formatEmpty (n pid : Nat) (h : 10 ≤ n) :
    (formatEmpty n pid).length = n := by
  rw [formatEmpty_eq n pid h]
  simp [List.length_replicate]
  omega

theorem freeSpace_formatEmpty (n pid : Nat) (h : 10 ≤ n) :
    freeSpace (formatEmpty n pid) = (n : Int) - 16 := by
  have h4 : getByte (formatEmpty n pid) 4 = 10 := by
    rw [formatEmpty_eq n pid h]
    rfl
  have h5 : getByte (formatEmpty n pid) 5 = 0 := by
    rw [formatEmpty_eq n pid h]
    rfl
  have h6 : getByte (formatEmpty n pid) 6 = 0 := by
    rw [formatEmpty_eq n pid h]
    rfl
  have h7 : getByte (formatEmpty n pid) 7 = 0 := by
    rw [formatEmpty_eq n pid h]
    rfl
  unfold freeSpace pageFreeOff pageSlotCount readU16
  rw [h4, h5, h6, h7, length_formatEmpty n pid h]
  norm_num [SLOT_SIZE]
  omega

theorem evictLoop_sound (frames : List (Nat × Frame)) (disk : List (Nat × List Nat))
    (lru : List Nat) (v : Nat) (frames2 : List (Nat × Frame))
    (disk2 : List (Nat × List Nat)) (rest : List Nat)
    (h : evictLoop frames disk lru = some (v, frames2, disk2, rest)) :
    ∃ fr, frames.lookup v = some fr ∧ fr.pin = 0 ∧
      frames2 = frames.filter (fun p => p.1 ≠ v) := by
  induction lru with
  | nil => simp [evictLoop] at h
  | cons c cs ih =>
    unfold evictLoop at h
    split at h
    · exact ih h
    · rename_i fr hc
      split at h
      · exact ih h
      · rename_i hpin
        simp only [Option.some.injEq, Prod.mk.injEq] at h
        obtain ⟨hv, hf, _, _⟩ := h
        subst hv
        exact ⟨fr, hc, by omega, hf.symm⟩

theorem insertRecord_err (p payload : List Nat)
    (h : freeSpace p < (payload.length + SLOT_SIZE : Int)) :
    insertRecord p payload = Except.error "not enough space in page" := by
  unfold insertRecord
  rw [if_pos (by exact_mod_cast h)]

theorem mem_stableInsert (lt : α → α → Bool) (x z : α) (l : List α)
    (h : z ∈ stableInsert lt x l) : z = x ∨ z ∈ l := by
  induction l with
  | nil =>
    simp [stableInsert] at h
    exact Or.inl h
  | cons y ys ih =>
    unfold stableInsert at h
    by_cases hlt : lt x y = true
    · rw [if_pos hlt] at h
      rcases List.mem_cons.mp h with h3 | h3
      · exact Or.inl h3
      · exact Or.inr h3
    · rw [if_neg hlt] at h
      rcases List.mem_cons.mp h with h3 | h3
      · exact Or.inr (by simp [h3])
      · rcases ih h3 with h2 | h2
        · exact Or.inl h2
        · exact Or.inr (by simp [h2])

theorem pairwise_stableInsert (f : α → Bool) (lt : α → α → Bool)
    (h1 : ∀ x y, f x = true → f y = false → lt x y = false)
    (h2 : ∀ x y, f x = false → f y = true → lt x y = true)
    (x : α) (l : List α)
    (hl : l.Pairwise (fun a b => f a = true → f b = true)) :
    (stableInsert lt x l).Pairwise (fun a b => f a = true → f b = true) := by
  induction l with
  | nil => simp [stableInsert]
  | cons y ys ih =>
    rw [List.pairwise_cons] at hl
    obtain ⟨hy, hys⟩ := hl
    unfold stableInsert
    by_cases hlt : lt x y = true
    · rw [if_pos hlt]
      have hxy : f x = true → f y = true := by
        intro hfx
        by_contra hfy
        have := h1 x y hfx (by revert hfy; cases f y <;> simp)
        rw [this] at hlt
        cases hlt
      refine List.pairwise_cons.mpr ⟨?_, List.pairwise_cons.mpr ⟨hy, hys⟩⟩
      intro z hz hfx
      rcases hz with _ | hz
      · exact hxy hfx
      · exact hy z (by assumption) (hxy hfx)
    · rw [if_neg hlt]
      refine List.pairwise_cons.mpr ⟨?_, ih hys⟩
      intro z hz hfy
      rcases mem_stableInsert lt x z ys hz with hzx | hzy
      · subst hzx
        by_contra hfx
        have := h2 z y (by revert hfx; cases f z <;> simp) hfy
        exact hlt this
      · exact hy z hzy hfy

theorem pairwise_stableSort_fold (f : α → Bool) (lt : α → α → Bool)
    (h1 : ∀ x y, f x = true → f y = false → lt x y = false)
    (h2 : ∀ x y, f x = false → f y = true → lt x y = true)
    (l acc : List α)
    (hacc : acc.Pairwise (fun a b => f a = true → f b = true)) :
    (l.foldl (fun a x => stableInsert lt x a) acc).Pairwise
      (fun a b => f a = true → f b = true) := by
  induction l generalizing acc with
  | nil => exact hacc
  | cons x xs ih =>
    exact ih _ (pairwise_stableInsert f lt h1 h2 x acc hacc)

theorem pairwise_stableSort (f : α → Bool) (lt : α → α → Bool)
    (h1 : ∀ x y, f x = true → f y = false → lt x y = false)
    (h2 : ∀ x y, f x = false → f y = true → lt x y = true)
    (l : List α) :
    (stableSort lt l).Pairwise (fun a b => f a = true → f b = true) :=
  pairwise_stableSort_fold f lt h1 h2 l [] (by simp)

theorem rowGet_rowSet (r : Row) (c : String) (v : Val) :
    rowGet (rowSet r c v) c = v := by
  induction r with
  | nil => simp [rowSet, rowGet, List.lookup]
  | cons p t ih =>
    obtain ⟨k, w⟩ := p
    by_cases hk : k = c
    · subst hk
      simp [rowSet, rowGet, List.lookup]
    · have hb : (c == k) = false := by simpa using fun hh => hk hh.symm
      simp only [rowSet, if_neg hk, rowGet, List.lookup, hb]
      exact ih

/-! ## Claim theorems -/

/-- C1.  The claim states that for every B+tree of order `M ≥ 4` and every
sequence of `insert(k, v)` calls — including ones long enough that a
non-root inner node overflows and splits — `search_eq(k)` yields the values
inserted under `k` in insertion order.  The code violates this: after
inserting the keys 20, 19, …, 7 into an order-4 tree, the 14th insert splits
a non-root inner node, `_split_upward_inner` builds fresh `left`/`right`
nodes that the parent does not contain, `_insert_to_parent` therefore
appends the separator key behind the parent's last key, and descent is
misrouted: `search_eq(18)` returns nothing although 18 was inserted. -/
theorem c1_bptree_nonroot_inner_split_loses_keys :
    searchEq (btreeOfInserts 4 c1FailingInserts) 18 = [] ∧
    insertedUnder c1FailingInserts 18 = [18] ∧
    (18, (18 : Int)) ∈ c1FailingInserts := by
  refine ⟨by decide, by decide, by decide⟩

/-- C2.  For the table `t(id INT, name VARCHAR)` with rows (1,'a'), (2,'b'),
(3,'c') and the index `idx_id` on `id`, `SELECT name FROM t WHERE id = 2`
returns `[{name:'b'}]` both through the index path (index heap loaded into a
B+tree, probed with `search_eq`) and through the sequential scan + filter
path. -/
theorem c2_index_and_seqscan_agree :
    c2IndexPath = some [[("name", Val.str "b")]] ∧
    c2SeqPath = [[("name", Val.str "b")]] := by
  refine ⟨by decide, by decide⟩

/-- C3.  In every buffer-pool state, under any of the public operations
(`get_page`, `unpin`, `flush_page`, `flush_all`), a page whose frame has
`pin_count > 0` is never evicted: it is still resident afterwards.  This
covers in particular the state of the claim in which the page id was placed
in the LRU candidate set before the frame was re-pinned by a later
`get_page` hit: `_evict_for` pops such an id but skips it because its
`pin_count` is positive. -/
theorem c3_pinned_page_never_evicted (s : BP) (op : BPOp) (pid : Nat) (fr : Frame)
    (hres : s.frames.lookup pid = some fr) (hpin : 0 < fr.pin) :
    ∃ fr2, (applyBPOp op s).frames.lookup pid = some fr2 := by
  cases op with
  | get q =>
    simp only [applyBPOp, getPage]
    cases hq : s.frames.lookup q with
    | some fr0 =>
      by_cases hpq : pid = q
      · subst hpq
        rw [hres] at hq
        cases hq
        exact ⟨_, lookup_assocSet_self s.frames pid _ fr hres⟩
      · refine ⟨fr, ?_⟩
        rw [lookup_assocSet_ne s.frames q pid _ hpq]
        exact hres
    | none =>
      have hpq : pid ≠ q := by
        intro hh
        subst hh
        rw [hres] at hq
        cases hq
      by_cases hcap : s.capacity ≤ s.frames.length
      · rw [if_pos hcap]
        cases hev : evictLoop s.frames s.disk s.lru with
        | none => exact ⟨fr, hres⟩
        | some out =>
          obtain ⟨v, frames2, disk2, rest⟩ := out
          obtain ⟨fr0, hv, hv0, hfil⟩ := evictLoop_sound s.frames s.disk s.lru v
            frames2 disk2 rest hev
          have hvpid : pid ≠ v := by
            intro hh
            subst hh
            rw [hres] at hv
            cases hv
            omega
          refine ⟨fr, ?_⟩
          rw [lookup_cons_ne q pid _ _ hpq, hfil, lookup_filter_ne s.frames v pid hvpid]
          exact hres
      · rw [if_neg hcap]
        refine ⟨fr, ?_⟩
        rw [lookup_cons_ne q pid _ _ hpq]
        exact hres
  | unpin q d =>
    simp only [applyBPOp, unpinBP]
    cases hq : s.frames.lookup q with
    | none => exact ⟨fr, hres⟩
    | some fr0 =>
      dsimp only
      by_cases h0 : fr0.pin = 0
      · rw [if_pos h0]
        exact ⟨fr, hres⟩
      · rw [if_neg h0]
        by_cases hpq : pid = q
        · subst hpq
          by_cases h1 : fr0.pin - 1 = 0
          · rw [if_pos h1]
            exact ⟨_, lookup_assocSet_self s.frames pid _ fr0 hq⟩
          · rw [if_neg h1]
            exact ⟨_, lookup_assocSet_self s.frames pid _ fr0 hq⟩
        · by_cases h1 : fr0.pin - 1 = 0
          · rw [if_pos h1]
            refine ⟨fr, ?_⟩
            simp only [Option.getD_some]
            rw [lookup_assocSet_ne s.frames q pid _ hpq]
            exact hres
          · rw [if_neg h1]
            refine ⟨fr, ?_⟩
            simp only [Option.getD_some]
            rw [lookup_assocSet_ne s.frames q pid _ hpq]
            exact hres
  | flushPage q =>
    simp only [applyBPOp, flushPageBP]
    cases hq : s.frames.lookup q with
    | none => exact ⟨fr, hres⟩
    | some fr0 =>
      dsimp only
      by_cases hd : fr0.dirty
      · rw [if_pos hd]
        by_cases hpq : pid = q
        · subst hpq
          exact ⟨_, lookup_assocSet_self s.frames pid _ fr0 hq⟩
        · refine ⟨fr, ?_⟩
          rw [lookup_assocSet_ne s.frames q pid _ hpq]
          exact hres
      · rw [if_neg hd]
        exact ⟨fr, hres⟩
  | flushAll =>
    simp only [applyBPOp, flushAllBP]
    refine ⟨{ fr with dirty := false }, ?_⟩
    rw [lookup_map_snd (fun f => { f with dirty := false }) s.frames pid, hres]
    rfl

/-- C3 witness: in `c3State` page 1 is pinned although its id is first in
the candidate list; `get_page(3)` evicts page 2 and keeps page 1 resident. -/
theorem c3_pinned_page_never_evicted_witness :
    ∃ fr2, (applyBPOp (BPOp.get 3) c3State).frames.lookup 1 = some fr2 :=
  c3_pinned_page_never_evicted c3State (BPOp.get 3) 1 ⟨1, [], 1, false⟩
    (by decide) (by decide)

/-- C4 counterexample.  The claim states that `unpin(pid, dirty)` ORs the
dirty argument into the frame's dirty flag even when `pin_count` is already
0.  In `c4State` page 1 has `pin_count = 0` and a clean frame, yet
`unpin(1, dirty=True)` returns with the state unchanged — the frame stays
clean — because the saturation early-return happens before the dirty flag is
touched. -/
theorem c4_unpin_pin0_drops_dirty :
    unpinBP c4State 1 true = some c4State ∧
    (c4State.frames.lookup 1) = some ⟨1, [], 0, false⟩ := by
  refine ⟨by decide, by decide⟩

/-- C4 amended.  `unpin(pid, dirty)` on a resident frame: when `pin_count`
is 0 the call is a no-op (the dirty argument is discarded); when
`pin_count > 0` it decrements the count, ORs the dirty argument into the
frame's dirty flag, and on the transition to 0 places the page in the LRU
candidate list. -/
theorem c4_unpin_amended (s : BP) (pid : Nat) (fr : Frame) (d : Bool)
    (h : s.frames.lookup pid = some fr) :
    (fr.pin = 0 → unpinBP s pid d = some s) ∧
    (0 < fr.pin → ∃ s2, unpinBP s pid d = some s2 ∧
      s2.frames.lookup pid = some { fr with pin := fr.pin - 1, dirty := fr.dirty || d } ∧
      (fr.pin = 1 → pid ∈ s2.lru)) := by
  constructor
  · intro h0
    unfold unpinBP
    rw [h]
    dsimp only
    rw [if_pos h0]
  · intro hpos
    unfold unpinBP
    rw [h]
    dsimp only
    rw [if_neg (by omega)]
    by_cases h1 : fr.pin - 1 = 0
    · rw [if_pos h1]
      refine ⟨_, rfl, ?_, ?_⟩
      · exact lookup_assocSet_self s.frames pid _ fr h
      · intro _
        simp [lruTouch]
    · rw [if_neg h1]
      refine ⟨_, rfl, ?_, ?_⟩
      · exact lookup_assocSet_self s.frames pid _ fr h
      · intro h2
        omega

/-- C4 witness: `unpin(1, true)` on the pinned clean frame of
`c4PinnedState` yields a state whose frame 1 has `pin_count = 0`,
`dirty = true`, and page 1 in the candidate list. -/
theorem c4_unpin_amended_witness :
    ∃ s2, unpinBP c4PinnedState 1 true = some s2 ∧
      s2.frames.lookup 1 = some ⟨1, [], 0, true⟩ ∧
      ((1 : Nat) = 1 → (1 : Nat) ∈ s2.lru) :=
  (c4_unpin_amended c4PinnedState 1 ⟨1, [], 1, false⟩ true (by decide)).2 (by decide)

/-- C5 counterexample.  The claim states the Join operator supports RIGHT
joins by swapping sides and running as LEFT.  Executing a join list whose
single join has type `RIGHT` instead raises `NotImplementedError` in the
type dispatch of `JoinOperator.execute`, so no swapped LEFT execution (and
no output row) ever happens. -/
theorem c5_right_join_not_implemented :
    joinExecuteModes [some "RIGHT"] =
      Except.error "JOIN type not supported: RIGHT" := by
  rfl

/-- C5 amended.  The Join operator supports exactly the types whose
upper-cased name is `INNER` or starts with `LEFT` (a missing type defaults
to INNER); every other type, RIGHT included, raises `NotImplementedError`. -/
theorem c5_join_types_amended :
    joinMode (some "INNER") = Except.ok "INNER" ∧
    joinMode (some "LEFT") = Except.ok "LEFT" ∧
    joinMode (some "LEFT OUTER") = Except.ok "LEFT" ∧
    joinMode none = Except.ok "INNER" ∧
    (∀ t m, joinMode t = Except.ok m →
      startsWithS "LEFT" (toUpperS (t.getD "INNER")) = true ∨
        toUpperS (t.getD "INNER") = "INNER") := by
  refine ⟨by rfl, by rfl, by rfl, by rfl, ?_⟩
  intro t m h
  unfold joinMode at h
  by_cases h1 : startsWithS "LEFT" (toUpperS (t.getD "INNER")) = true
  · exact Or.inl h1
  · rw [if_neg (by simpa using h1)] at h
    by_cases h2 : toUpperS (t.getD "INNER") = "INNER"
    · exact Or.inr h2
    · rw [if_neg h2] at h
      cases h

/-- C5 witness for the amended universal clause, applied at the join type
`LEFT OUTER`. -/
theorem c5_join_types_amended_witness :
    startsWithS "LEFT" (toUpperS ((some "LEFT OUTER").getD "INNER")) = true ∨
      toUpperS ((some "LEFT OUTER").getD "INNER") = "INNER" :=
  c5_join_types_amended.2.2.2.2 (some "LEFT OUTER") "LEFT" (by rfl)

/-- C6.  For a live slot `sid` of a well-formed slotted page (the slot's
extent lies in the data area, below the slot directory, per the layout
invariants of the page format) and any payload `q`: `overwrite_record`
returns true exactly when `|q|` equals the stored record length; on true a
subsequent `read_record(sid)` returns `q`; on false the page bytes are
untouched. -/
theorem c6_overwrite_record_frame_effect (page q : List Nat) (sid : Nat)
    (hsid : sid < pageSlotCount page)
    (hlive : slotTomb page sid = 0)
    (hext : slotOffset page sid + slotLength page sid + pageSlotCount page * SLOT_SIZE
      ≤ page.length) :
    ∃ b page2, overwriteRecord page sid q = Except.ok (b, page2) ∧
      ((b = true) ↔ q.length = recordLength page sid) ∧
      (b = true → readRecord page2 sid = Except.ok q) ∧
      (b = false → page2 = page) := by
  have hS : SLOT_SIZE = 6 := rfl
  rw [hS] at hext
  have hnt : ¬ slotTomb page sid ≠ 0 := by simp [hlive]
  by_cases hlen : q.length = slotLength page sid
  · have hne : ¬ q.length ≠ slotLength page sid := by simp [hlen]
    refine ⟨true, setBytes page (slotOffset page sid) q, ?_, ?_, ?_, ?_⟩
    · unfold overwriteRecord
      rw [if_neg hnt, if_neg hne]
    · simp [recordLength, hlen]
    · intro _
      have hsc : sid + 1 ≤ pageSlotCount page := hsid
      obtain ⟨off, hoff⟩ : ∃ x, slotOffset page sid = x := ⟨_, rfl⟩
      obtain ⟨len, hlen3⟩ : ∃ x, slotLength page sid = x := ⟨_, rfl⟩
      rw [hoff, hlen3] at hext
      rw [hlen3] at hlen
      rw [hoff]
      have hinr : off + q.length ≤ page.length := by omega
      have hsp : slotPos page sid = page.length - (sid + 1) * 6 := by
        simp [slotPos, hS]
      have hpres : ∀ k : Nat, k ≤ 4 →
          getByte (setBytes page off q) (slotPos page sid + k) =
            getByte page (slotPos page sid + k) := by
        intro k hk
        exact getByte_setBytes_of_ge page q _ _ hinr (by omega)
      have hlen2 : (setBytes page off q).length = page.length :=
        setBytes_length _ _ _ hinr
      have hsp2 : slotPos (setBytes page off q) sid = slotPos page sid := by
        simp [slotPos, hlen2]
      have htomb2 : slotTomb (setBytes page off q) sid = 0 := by
        unfold slotTomb at hlive ⊢
        rw [hsp2, hpres 4 (by omega)]
        exact hlive
      have hslen2 : slotLength (setBytes page off q) sid = len := by
        rw [← hlen3]
        unfold slotLength readU16
        rw [hsp2, hpres 2 (by omega), hpres 3 (by omega)]
      have hsoff2 : slotOffset (setBytes page off q) sid = off := by
        have hp0 := hpres 0 (by omega)
        rw [Nat.add_zero] at hp0
        have hgoal : slotOffset (setBytes page off q) sid = slotOffset page sid := by
          unfold slotOffset readU16
          rw [hsp2, hp0, hpres 1 (by omega)]
        rw [hgoal, hoff]
      unfold readRecord
      rw [htomb2]
      rw [if_neg (by simp), hslen2, hsoff2]
      by_cases h0 : len = 0
      · rw [if_pos h0]
        have hq0 : q = [] := List.length_eq_zero.mp (by omega)
        rw [hq0]
      · rw [if_neg h0, ← hlen]
        rw [getBytes_setBytes page q _ hinr]
    · intro hb
      cases hb
  · refine ⟨false, page, ?_, ?_, ?_, ?_⟩
    · unfold overwriteRecord
      rw [if_neg hnt, if_pos hlen]
    · exact iff_of_false (by simp) (by simpa [recordLength] using hlen)
    · intro hb
      cases hb
    · intro _
      rfl

/-- C6 witness: on the concrete page `c6Page` (one live record `[7,8,9]` at
offset 10), an equal-length overwrite succeeds and reads back, instantiating
the theorem at slot 0 with payload `[4,5,6]`. -/
theorem c6_overwrite_record_frame_effect_witness :
    ∃ b page2, overwriteRecord c6Page 0 [4, 5, 6] = Except.ok (b, page2) ∧
      ((b = true) ↔ ([4, 5, 6] : List Nat).length = recordLength c6Page 0) ∧
      (b = true → readRecord page2 0 = Except.ok [4, 5, 6]) ∧
      (b = false → page2 = c6Page) :=
  c6_overwrite_record_frame_effect c6Page [4, 5, 6] 0 (by decide) (by decide) (by decide)

/-- C7 counterexample.  The claim states the Update operator sets each SET
column to the value coerced by the column's declared type.  For the table
`t(name VARCHAR)` holding `{name:'x'}`, `UPDATE t SET name = 123` stores the
integer 123 (the row transformation of `UpdateOperator.execute` applies
`_parse_value`, which parses by literal syntax), whereas the declared-type
coercion `coerce_by_type('123', VARCHAR)` keeps the string `'123'` — the two
results differ. -/
theorem c7_update_ignores_declared_type :
    updateRowsExec c7Rows c7Sets none = [[("name", Val.int 123)]] ∧
    updateRowsSpec c7Schema c7Rows c7Sets none = [[("name", Val.str "123")]] ∧
    updateRowsExec c7Rows c7Sets none ≠ updateRowsSpec c7Schema c7Rows c7Sets none := by
  refine ⟨by decide, by decide, by decide⟩

/-- C7 amended.  Every row matching WHERE has each SET column assigned
`_parse_value(value)`: the literal's own syntax decides the stored type
(quoted text becomes a string with the quotes stripped, an unquoted digit
run becomes an integer), and the declared column type is never consulted —
the update of a single clause on a matching row stores exactly
`_parse_value(value)` under the column. -/
theorem c7_update_amended :
    (∀ (row : Row) (c : String) (v : Val) (w : Option Wh),
      matchWhere row w = true →
      updateRowsExec [row] [⟨c, v⟩] w = [rowSet row c (parseValue v)] ∧
      rowGet (rowSet row c (parseValue v)) c = parseValue v) ∧
    parseValue (Val.str "123") = Val.int 123 ∧
    parseValue (Val.str "'abc'") = Val.str "abc" := by
  refine ⟨?_, by decide, by decide⟩
  intro row c v w hmatch
  constructor
  · unfold updateRowsExec
    simp [hmatch]
  · exact rowGet_rowSet row c (parseValue v)

/-- C7 witness: the amended statement applied at the concrete row
`{name:'x'}`, clause `SET name = 123`, empty WHERE. -/
theorem c7_update_amended_witness :
    updateRowsExec [[("name", Val.str "x")]] [⟨"name", Val.str "123"⟩] none =
      [rowSet [("name", Val.str "x")] "name" (parseValue (Val.str "123"))] ∧
    rowGet (rowSet [("name", Val.str "x")] "name" (parseValue (Val.str "123"))) "name" =
      parseValue (Val.str "123") :=
  c7_update_amended.1 [("name", Val.str "x")] "name" (Val.str "123") none (by decide)

/-- C8.  For every input row sequence and every single ORDER BY key, rows
whose key value is NULL (or missing) are emitted after every row with a
value, for both directions — stated as: in the output of one `OrderBy`
pass, once a null-keyed row appears, every later row is null-keyed.  The
two concrete examples of the claim are included: `[{a:1},{a:null},{a:2}]`
ordered by `a ASC` gives `[{a:1},{a:2},{a:null}]` and by `a DESC` gives
`[{a:2},{a:1},{a:null}]`. -/
theorem c8_orderby_nulls_last :
    (∀ (K : Type) [LinearOrder K] (rows : List (RowO K)) (col dir : String),
      (orderByPass col dir rows).Pairwise
        (fun a b => (rowGetO a (baseCol col)).isNone = true →
          (rowGetO b (baseCol col)).isNone = true)) ∧
    orderByExec [("a", "ASC")] c8Rows =
      [[("a", some 1)], [("a", some 2)], [("a", none)]] ∧
    orderByExec [("a", "DESC")] c8Rows =
      [[("a", some 2)], [("a", some 1)], [("a", none)]] := by
  refine ⟨?_, by decide, by decide⟩
  intro K instK rows col dir
  unfold orderByPass
  by_cases hd : toUpperS dir = "DESC"
  · rw [if_pos hd]
    apply pairwise_stableSort
    · intro x y hx _
      cases hrx : rowGetO x (baseCol col) with
      | some a =>
        rw [hrx] at hx
        simp at hx
      | none =>
        simp [ltNoneKey, hrx]
    · intro x y hx hy
      cases hrx : rowGetO x (baseCol col) with
      | none =>
        rw [hrx] at hx
        simp at hx
      | some a =>
        cases hry : rowGetO y (baseCol col) with
        | some b =>
          rw [hry] at hy
          simp at hy
        | none =>
          simp [ltNoneKey, hrx, hry]
  · rw [if_neg hd]
    apply pairwise_stableSort
    · intro x y hx _
      cases hrx : rowGetO x (baseCol col) with
      | some a =>
        rw [hrx] at hx
        simp at hx
      | none =>
        simp [ltAsc, hrx]
    · intro x y hx hy
      cases hrx : rowGetO x (baseCol col) with
      | none =>
        rw [hrx] at hx
        simp at hx
      | some a =>
        cases hry : rowGetO y (baseCol col) with
        | some b =>
          rw [hry] at hy
          simp at hy
        | none =>
          simp [ltAsc, hrx, hry]

/-- C8 witness: the universal clause applied at `K = Int`, the example rows,
key `a`, direction ASC. -/
theorem c8_orderby_nulls_last_witness :
    (orderByPass "a" "ASC" c8Rows).Pairwise
      (fun a b => (rowGetO a (baseCol "a")).isNone = true →
        (rowGetO b (baseCol "a")).isNone = true) :=
  c8_orderby_nulls_last.1 Int c8Rows "a" "ASC"

/-- C10.  For every heap state over pages of size `page_size` (every cached
page having the true length and a `free_off` of at least the 10-byte
header, as every page produced by `format_empty` and the page operations
does) and every payload longer than `page_size - HDR_SIZE - 2*SLOT_SIZE`
bytes, `TableHeap.insert` raises the out-of-space error regardless of the
table's contents: even a freshly allocated empty page refuses the record,
because its free space `page_size - HDR_SIZE - SLOT_SIZE` is below
`len(payload) + SLOT_SIZE`. -/
theorem c10_oversized_insert_always_fails (s : HeapSt) (payload : List Nat)
    (hpages : ∀ pid page, s.pages.lookup pid = some page →
      page.length = s.pageSize ∧ 10 ≤ pageFreeOff page)
    (hps : 16 ≤ s.pageSize)
    (hbig : s.pageSize < payload.length + 22) :
    tableHeapInsert s payload = Except.error "not enough space in page" := by
  have hS : SLOT_SIZE = 6 := rfl
  have hfreshFree : ∀ pid2 : Nat, freeSpace (formatEmpty s.pageSize pid2) <
      (payload.length + SLOT_SIZE : Int) := by
    intro pid2
    rw [freeSpace_formatEmpty s.pageSize pid2 (by omega), hS]
    push_cast
    omega
  have hErr : ∀ pid2 : Nat, insertRecord (formatEmpty s.pageSize pid2) payload =
      Except.error "not enough space in page" :=
    fun pid2 => insertRecord_err _ _ (hfreshFree pid2)
  have hpAll : ∀ x : HeapSt, x.pageSize = s.pageSize →
      heapPage (allocateDataPage x).1 (allocateDataPage x).2 =
        formatEmpty s.pageSize x.nextPid := by
    intro x hx
    unfold allocateDataPage heapPage
    dsimp only
    rw [lookup_cons_eq x.nextPid x.nextPid _ _ rfl]
    simp [hx]
  unfold tableHeapInsert
  dsimp only
  cases hch : choosePageForInsert s payload.length with
  | none =>
    dsimp only
    rw [hpAll s rfl, if_pos (hfreshFree s.nextPid)]
    dsimp only
    rw [hpAll (allocateDataPage s).1 rfl, hErr]
  | some pid =>
    dsimp only
    have hroom : freeSpace (heapPage s pid) < (payload.length + SLOT_SIZE : Int) := by
      cases hlp : s.pages.lookup pid with
      | some page =>
        obtain ⟨hlen, hfo⟩ := hpages pid page hlp
        have hhp : heapPage s pid = page := by
          unfold heapPage
          rw [hlp]
          rfl
        rw [hhp]
        unfold freeSpace
        rw [hlen, hS]
        push_cast
        omega
      | none =>
        have hhp : heapPage s pid = [] := by
          unfold heapPage
          rw [hlp]
          rfl
        rw [hhp]
        have hm6 : freeSpace ([] : List Nat) = -6 := by decide
        rw [hm6, hS]
        push_cast
        omega
    rw [if_pos hroom]
    dsimp only
    rw [hpAll s rfl, hErr]

/-- C10 witness: inserting a 4075-byte payload into a freshly created empty
table over 4096-byte pages raises the out-of-space error. -/
theorem c10_oversized_insert_always_fails_witness :
    tableHeapInsert c10State c10Payload = Except.error "not enough space in page" :=
  c10_oversized_insert_always_fails c10State c10Payload
    (by intro pid page h; simp [c10State, List.lookup] at h)
    (by decide)
    (by
      have h1 : c10Payload.length = 4075 := by
        unfold c10Payload
        rw [List.length_replicate]
      have h2 : c10State.pageSize = 4096 := rfl
      rw [h1, h2]
      omega)
